import Mathlib

/-!
Verification development for the `@happy/protocol` package of the
Enflame-Media/happy-shared repository.

The package defines Zod schemas for a wire protocol: a discriminated union of
"durable updates" (`ApiUpdateSchema`, discriminator field `t`), a union of
"ephemeral events" (`ApiEphemeralUpdateSchema`, discriminator field `type`),
payload envelopes, and identifier accessor helpers.  We shallowly embed the
runtime behaviour of those schemas: JSON values become an inductive `JValue`,
every Zod schema becomes an executable parser `JValue → Except ZodIssue JValue`
mirroring Zod's parse semantics (objects strip unknown keys, required keys
missing yield `invalid_type`, string `.min`/`.max` checks yield
`too_small`/`too_big`, `z.discriminatedUnion` fails with
`invalid_union_discriminator` on an unknown discriminator while `z.union`
fails with the generic `invalid_union`).

Issue paths are not modelled (only the issue kind matters for the properties
below), JS numbers are modelled as integers (no property below depends on
fractional values), and string length is codepoint length (all inputs used
below are ASCII, where this agrees with JavaScript).
-/

namespace HappyShared

/-- Shallow embedding of a JSON value (the input and output of Zod parsing).
`obj` keeps the field order of the source object; lookup takes the first
binding of a key, as JavaScript property access does for the objects built by
this protocol. -/
inductive JValue where
  | null
  | bool (b : Bool)
  | num (n : Int)
  | str (s : String)
  | arr (elems : List JValue)
  | obj (fields : List (String × JValue))
deriving Repr

/-- Kinds of Zod parse issues relevant to this package, mirroring Zod's issue
codes: `invalid_type`, `invalid_literal`, `invalid_enum_value`, `too_small`,
`too_big`, `invalid_union` (the generic error a `z.union` reports when every
alternative fails) and `invalid_union_discriminator` (the distinct error a
`z.discriminatedUnion` reports when the discriminator value is unknown). -/
inductive ZodIssue where
  | invalidType
  | invalidLiteral
  | invalidEnum
  | tooSmall
  | tooBig
  | invalidUnion
  | invalidUnionDiscriminator
deriving Repr, DecidableEq

/-- Result of running a Zod schema: the parsed value or an issue kind. -/
abbrev ZResult := Except ZodIssue JValue

/-- A Zod schema, embedded as its runtime parse function. -/
abbrev ZSchema := JValue → ZResult

/-- A field inside a `z.object(...)`: consumes the (possibly absent) property
value; returns `none` when the field is absent from the parsed output (an
absent optional field). -/
abbrev ZField := Option JValue → Except ZodIssue (Option JValue)

/-- Property lookup on an object's field list (first binding wins). -/
def objLookup (fields : List (String × JValue)) (key : String) : Option JValue :=
  (fields.find? (fun f => f.1 == key)).map (fun f => f.2)

/-- Property lookup on a JSON value; `none` on non-objects. -/
def jLookup (v : JValue) (key : String) : Option JValue :=
  match v with
  | .obj fields => objLookup fields key
  | _ => none

/-- Embedding of `z.string()`. -/
def zString : ZSchema := fun v =>
  match v with
  | .str _ => .ok v
  | _ => .error .invalidType

/-- Embedding of `z.string().max(mx)`. -/
def zStringMax (mx : Nat) : ZSchema := fun v =>
  match v with
  | .str s => if s.length > mx then .error .tooBig else .ok v
  | _ => .error .invalidType

/-- Embedding of `z.string().min(mn).max(mx)` (checks run in registration
order: the `min` check first, then the `max` check). -/
def zStringMinMax (mn mx : Nat) : ZSchema := fun v =>
  match v with
  | .str s =>
      if s.length < mn then .error .tooSmall
      else if s.length > mx then .error .tooBig
      else .ok v
  | _ => .error .invalidType

/-- Embedding of `z.number()`. -/
def zNumber : ZSchema := fun v =>
  match v with
  | .num _ => .ok v
  | _ => .error .invalidType

/-- Embedding of `z.boolean()`. -/
def zBoolean : ZSchema := fun v =>
  match v with
  | .bool _ => .ok v
  | _ => .error .invalidType

/-- Embedding of `z.literal(s)` for a string literal. -/
def zLiteral (s : String) : ZSchema := fun v =>
  match v with
  | .str t => if t == s then .ok v else .error .invalidLiteral
  | _ => .error .invalidLiteral

/-- Embedding of `z.enum([...])`. -/
def zEnum (opts : List String) : ZSchema := fun v =>
  match v with
  | .str s => if opts.contains s then .ok v else .error .invalidEnum
  | _ => .error .invalidType

/-- Embedding of `.nullable()`: `null` passes through, anything else is
parsed by the wrapped schema. -/
def zNullable (p : ZSchema) : ZSchema := fun v =>
  match v with
  | .null => .ok .null
  | _ => p v

/-- A required object field: absence is an `invalid_type` issue (Zod's
"Required" error), presence runs the schema. -/
def zReq (p : ZSchema) : ZField := fun ov =>
  match ov with
  | none => .error .invalidType
  | some v => (p v).map some

/-- An `.optional()` object field: absence is accepted and omitted from the
parsed output. -/
def zOpt (p : ZSchema) : ZField := fun ov =>
  match ov with
  | none => .ok none
  | some v => (p v).map some

/-- A `.nullable()` object field (required, but `null` is accepted). -/
def zNullableF (p : ZSchema) : ZField := zReq (zNullable p)

/-- A `.nullish()` object field (optional and nullable). -/
def zNullishF (p : ZSchema) : ZField := zOpt (zNullable p)

/-- Runs the declared fields of a `z.object(...)` against an input object's
bindings, producing the parsed output bindings in declaration order.  Unknown
input keys are stripped, as by Zod's default object policy. -/
def runFields (kvs : List (String × JValue)) :
    List (String × ZField) → Except ZodIssue (List (String × JValue))
  | [] => .ok []
  | (key, fp) :: rest => do
      let r ← fp (objLookup kvs key)
      let tail ← runFields kvs rest
      match r with
      | some w => .ok ((key, w) :: tail)
      | none => .ok tail

/-- Embedding of `z.object({...})` with the default (strip) policy. -/
def zObject (fields : List (String × ZField)) : ZSchema := fun v =>
  match v with
  | .obj kvs => (runFields kvs fields).map .obj
  | _ => .error .invalidType

/-- Embedding of `z.object({...}).passthrough()`: the declared fields are
validated, and the whole input object (unknown keys included) is returned.
The declared fields of the one passthrough object in this package are plain
`z.string()`, which parse to their input, so returning the input object is
exact. -/
def zObjectPassthrough (fields : List (String × ZField)) : ZSchema := fun v =>
  match v with
  | .obj kvs => (runFields kvs fields).map (fun _ => .obj kvs)
  | _ => .error .invalidType

/-- Embedding of `z.array(p)`. -/
def zArray (p : ZSchema) : ZSchema := fun v =>
  match v with
  | .arr xs => (xs.mapM p).map .arr
  | _ => .error .invalidType

/-- Embedding of `z.union([...])` parsing: the alternatives are tried in
order (a linear scan); if every alternative fails the result is the generic
`invalid_union` issue. -/
def zUnionGo (ps : List ZSchema) (v : JValue) : ZResult :=
  match ps with
  | [] => .error .invalidUnion
  | p :: rest =>
      match p v with
      | .ok r => .ok r
      | .error _ => zUnionGo rest v

/-- Embedding of `z.union([...])`. -/
def zUnion (ps : List ZSchema) : ZSchema := fun v => zUnionGo ps v

/-- Embedding of `z.discriminatedUnion(key, [...])` parsing: the discriminator
value selects the single candidate schema through a map keyed by discriminator
value (Zod's `optionsMap`); a discriminator that is absent, not a string, or
not in the map yields the distinct `invalid_union_discriminator` issue. -/
def zDiscriminatedUnion (key : String) (options : List (String × ZSchema)) :
    ZSchema := fun v =>
  match v with
  | .obj kvs =>
      match objLookup kvs key with
      | some (.str tag) =>
          match options.find? (fun o => o.1 == tag) with
          | some o => o.2 v
          | none => .error .invalidUnionDiscriminator
      | _ => .error .invalidUnionDiscriminator
  | _ => .error .invalidType

/-! Common schemas, translated from
`packages/@happy/protocol/src/common.ts`. -/

/-- Embedding of `GitHubProfileSchema` (common.ts). -/
def GitHubProfileSchema : ZSchema := zObject
  [("id", zReq zNumber),
   ("login", zReq zString),
   ("name", zReq zString),
   ("avatar_url", zReq zString),
   ("email", zOpt zString),
   ("bio", zNullableF zString)]

/-- Embedding of `ImageRefSchema` (common.ts). -/
def ImageRefSchema : ZSchema := zObject
  [("width", zReq zNumber),
   ("height", zReq zNumber),
   ("thumbhash", zReq zString),
   ("path", zReq zString),
   ("url", zReq zString)]

/-- Embedding of `RelationshipStatusSchema` (common.ts). -/
def RelationshipStatusSchema : ZSchema :=
  zEnum ["none", "requested", "pending", "friend", "rejected"]

/-- Embedding of `UserProfileSchema` (common.ts). -/
def UserProfileSchema : ZSchema := zObject
  [("id", zReq zString),
   ("firstName", zReq zString),
   ("lastName", zNullableF zString),
   ("avatar", zNullableF ImageRefSchema),
   ("username", zReq zString),
   ("bio", zNullableF zString),
   ("status", zReq RelationshipStatusSchema)]

/-- Embedding of `FeedBodySchema` (common.ts), a `z.discriminatedUnion`
keyed by `kind`. -/
def FeedBodySchema : ZSchema := zDiscriminatedUnion "kind"
  [("friend_request", zObject [("kind", zReq (zLiteral "friend_request")), ("uid", zReq zString)]),
   ("friend_accepted", zObject [("kind", zReq (zLiteral "friend_accepted")), ("uid", zReq zString)]),
   ("text", zObject [("kind", zReq (zLiteral "text")), ("text", zReq zString)])]

/-- Embedding of `EncryptedContentSchema` (common.ts): the encrypted envelope
is `{ t: z.literal('encrypted'), c: z.string() }` — field names `t` and `c`,
with `c` holding the Base64 encoded encrypted content. -/
def EncryptedContentSchema : ZSchema := zObject
  [("t", zReq (zLiteral "encrypted")),
   ("c", zReq zString)]

/-- Embedding of `VersionedValueSchema` (common.ts). -/
def VersionedValueSchema : ZSchema := zObject
  [("version", zReq zNumber),
   ("value", zReq zString)]

/-- Embedding of `NullableVersionedValueSchema` (common.ts). -/
def NullableVersionedValueSchema : ZSchema := zObject
  [("version", zReq zNumber),
   ("value", zNullableF zString)]

/-! Message update schemas, translated from
`packages/@happy/protocol/src/updates/message.ts`. -/

/-- Embedding of `ApiMessageSchema` (updates/message.ts). -/
def ApiMessageSchema : ZSchema := zObject
  [("id", zReq zString),
   ("seq", zReq zNumber),
   ("localId", zNullishF zString),
   ("content", zReq EncryptedContentSchema),
   ("createdAt", zReq zNumber)]

/-- Embedding of `ApiUpdateNewMessageSchema` (updates/message.ts).  The
session identifier field is `sid`, a plain `z.string()` with no length
bound. -/
def ApiUpdateNewMessageSchema : ZSchema := zObject
  [("t", zReq (zLiteral "new-message")),
   ("sid", zReq zString),
   ("message", zReq ApiMessageSchema)]

/-- Embedding of `ApiDeleteSessionSchema` (updates/message.ts). -/
def ApiDeleteSessionSchema : ZSchema := zObject
  [("t", zReq (zLiteral "delete-session")),
   ("sid", zReq zString)]

/-- Modelled from the spec: the `STRING_LIMITS` constants of the
`constraints` module are imported by the session and machine schema files but
the module itself is not under `src/`.  The spec says each identifier field
is bounded by an implementation constant of a few hundred characters and each
encrypted-blob field by a larger constant on the order of tens of kilobytes.
The limits are kept as an explicit parameter so every theorem below holds for
any choice of the constants. -/
structure StringLimits where
  ID_MAX : Nat
  ENCRYPTED_STATE_MAX : Nat
  DATA_ENCRYPTION_KEY_MAX : Nat

/-- Modelled from the spec: a representative instantiation of `STRING_LIMITS`
("a few hundred characters" for identifiers, "tens of kilobytes" for
encrypted blobs), used only to instantiate universally quantified theorems at
a concrete value. -/
def specLimits : StringLimits :=
  { ID_MAX := 255, ENCRYPTED_STATE_MAX := 65536, DATA_ENCRYPTION_KEY_MAX := 1024 }

/-! Session update schemas, translated from the HAP-654 revision of
`updates/session.ts` (`src/unnamed/part_005`; every session schema uses the
`sid` field with `z.string().min(1).max(STRING_LIMITS.ID_MAX)`). -/

/-- Embedding of `ApiUpdateNewSessionSchema` (updates/session.ts). -/
def ApiUpdateNewSessionSchema (L : StringLimits) : ZSchema := zObject
  [("t", zReq (zLiteral "new-session")),
   ("sid", zReq (zStringMinMax 1 L.ID_MAX)),
   ("seq", zReq zNumber),
   ("metadata", zReq (zStringMax L.ENCRYPTED_STATE_MAX)),
   ("metadataVersion", zReq zNumber),
   ("agentState", zNullableF (zStringMax L.ENCRYPTED_STATE_MAX)),
   ("agentStateVersion", zReq zNumber),
   ("dataEncryptionKey", zNullableF (zStringMax L.DATA_ENCRYPTION_KEY_MAX)),
   ("active", zReq zBoolean),
   ("activeAt", zReq zNumber),
   ("createdAt", zReq zNumber),
   ("updatedAt", zReq zNumber)]

/-- Embedding of `ApiUpdateSessionStateSchema` (updates/session.ts). -/
def ApiUpdateSessionStateSchema (L : StringLimits) : ZSchema := zObject
  [("t", zReq (zLiteral "update-session")),
   ("sid", zReq (zStringMinMax 1 L.ID_MAX)),
   ("agentState", zNullishF NullableVersionedValueSchema),
   ("metadata", zNullishF NullableVersionedValueSchema)]

/-- Embedding of `ArchiveReasonSchema` (updates/session.ts). -/
def ArchiveReasonSchema : ZSchema :=
  zEnum ["revival_failed", "user_requested", "timeout"]

/-- Embedding of `ApiArchiveSessionSchema` (updates/session.ts): the
`archive-session` update variant. -/
def ApiArchiveSessionSchema (L : StringLimits) : ZSchema := zObject
  [("t", zReq (zLiteral "archive-session")),
   ("sid", zReq (zStringMinMax 1 L.ID_MAX)),
   ("archivedAt", zReq zNumber),
   ("archiveReason", zReq ArchiveReasonSchema)]

/-! Machine update schemas, translated from the HAP-655/HAP-778 revision of
`updates/machine.ts` (`src/unnamed/part_007`; every machine schema uses the
`machineId` field with `z.string().min(1).max(STRING_LIMITS.ID_MAX)`). -/

/-- Embedding of `ApiNewMachineSchema` (updates/machine.ts). -/
def ApiNewMachineSchema (L : StringLimits) : ZSchema := zObject
  [("t", zReq (zLiteral "new-machine")),
   ("machineId", zReq (zStringMinMax 1 L.ID_MAX)),
   ("seq", zReq zNumber),
   ("metadata", zReq (zStringMax L.ENCRYPTED_STATE_MAX)),
   ("metadataVersion", zReq zNumber),
   ("daemonState", zNullableF (zStringMax L.ENCRYPTED_STATE_MAX)),
   ("daemonStateVersion", zReq zNumber),
   ("dataEncryptionKey", zNullableF (zStringMax L.DATA_ENCRYPTION_KEY_MAX)),
   ("active", zReq zBoolean),
   ("activeAt", zReq zNumber),
   ("createdAt", zReq zNumber),
   ("updatedAt", zReq zNumber)]

/-- Embedding of `ApiUpdateMachineStateSchema` (updates/machine.ts). -/
def ApiUpdateMachineStateSchema (L : StringLimits) : ZSchema := zObject
  [("t", zReq (zLiteral "update-machine")),
   ("machineId", zReq (zStringMinMax 1 L.ID_MAX)),
   ("metadata", zOpt VersionedValueSchema),
   ("daemonState", zOpt VersionedValueSchema),
   ("active", zOpt zBoolean),
   ("activeAt", zOpt zNumber)]

/-- Embedding of `ApiDeleteMachineSchema` (updates/machine.ts, HAP-778): the
`delete-machine` update variant. -/
def ApiDeleteMachineSchema (L : StringLimits) : ZSchema := zObject
  [("t", zReq (zLiteral "delete-machine")),
   ("machineId", zReq (zStringMinMax 1 L.ID_MAX))]

/-! Artifact update schemas, translated from `updates/artifact.ts`
(`src/unnamed/part_006`). -/

/-- Embedding of `ApiNewArtifactSchema` (updates/artifact.ts). -/
def ApiNewArtifactSchema : ZSchema := zObject
  [("t", zReq (zLiteral "new-artifact")),
   ("artifactId", zReq zString),
   ("header", zReq zString),
   ("headerVersion", zReq zNumber),
   ("body", zOpt zString),
   ("bodyVersion", zOpt zNumber),
   ("dataEncryptionKey", zReq zString),
   ("seq", zReq zNumber),
   ("createdAt", zReq zNumber),
   ("updatedAt", zReq zNumber)]

/-- Embedding of `ApiUpdateArtifactSchema` (updates/artifact.ts). -/
def ApiUpdateArtifactSchema : ZSchema := zObject
  [("t", zReq (zLiteral "update-artifact")),
   ("artifactId", zReq zString),
   ("header", zOpt VersionedValueSchema),
   ("body", zOpt VersionedValueSchema)]

/-- Embedding of `ApiDeleteArtifactSchema` (updates/artifact.ts). -/
def ApiDeleteArtifactSchema : ZSchema := zObject
  [("t", zReq (zLiteral "delete-artifact")),
   ("artifactId", zReq zString)]

/-! Account and miscellaneous update schemas, translated from
`updates/account.ts` and `updates/misc.ts`. -/

/-- Embedding of `ApiUpdateAccountSchema` (updates/account.ts). -/
def ApiUpdateAccountSchema : ZSchema := zObject
  [("t", zReq (zLiteral "update-account")),
   ("id", zReq zString),
   ("settings", zNullishF NullableVersionedValueSchema),
   ("firstName", zNullishF zString),
   ("lastName", zNullishF zString),
   ("avatar", zNullishF ImageRefSchema),
   ("github", zNullishF GitHubProfileSchema)]

/-- Embedding of `ApiRelationshipUpdatedSchema` (updates/misc.ts). -/
def ApiRelationshipUpdatedSchema : ZSchema := zObject
  [("t", zReq (zLiteral "relationship-updated")),
   ("fromUserId", zReq zString),
   ("toUserId", zReq zString),
   ("status", zReq RelationshipStatusSchema),
   ("action", zReq (zEnum ["created", "updated", "deleted"])),
   ("fromUser", zOpt UserProfileSchema),
   ("toUser", zOpt UserProfileSchema),
   ("timestamp", zReq zNumber)]

/-- Embedding of `ApiNewFeedPostSchema` (updates/misc.ts). -/
def ApiNewFeedPostSchema : ZSchema := zObject
  [("t", zReq (zLiteral "new-feed-post")),
   ("id", zReq zString),
   ("body", zReq FeedBodySchema),
   ("cursor", zReq zString),
   ("createdAt", zReq zNumber),
   ("repeatKey", zNullableF zString)]

/-- Embedding of `ApiKvBatchUpdateSchema` (updates/misc.ts). -/
def ApiKvBatchUpdateSchema : ZSchema := zObject
  [("t", zReq (zLiteral "kv-batch-update")),
   ("changes", zReq (zArray (zObject
      [("key", zReq zString),
       ("value", zNullableF zString),
       ("version", zReq zNumber)])))]

/-! The durable update union, translated from `updates/index.ts`. -/

/-- Discriminator options of `ApiUpdateSchema = z.discriminatedUnion('t', [...])`
(updates/index.ts), keyed by each variant's `t` literal — Zod's `optionsMap`.
The thirteen members are exactly the schemas listed in the source array:
`ApiArchiveSessionSchema` and `ApiDeleteMachineSchema` are not among them. -/
def updateSchemaList (L : StringLimits) : List (String × ZSchema) :=
  [("new-message", ApiUpdateNewMessageSchema),
   ("new-session", ApiUpdateNewSessionSchema L),
   ("delete-session", ApiDeleteSessionSchema),
   ("update-session", ApiUpdateSessionStateSchema L),
   ("update-account", ApiUpdateAccountSchema),
   ("update-machine", ApiUpdateMachineStateSchema L),
   ("new-machine", ApiNewMachineSchema L),
   ("new-artifact", ApiNewArtifactSchema),
   ("update-artifact", ApiUpdateArtifactSchema),
   ("delete-artifact", ApiDeleteArtifactSchema),
   ("relationship-updated", ApiRelationshipUpdatedSchema),
   ("new-feed-post", ApiNewFeedPostSchema),
   ("kv-batch-update", ApiKvBatchUpdateSchema)]

/-- The discriminator values of the durable update union, in source order. -/
def knownUpdateTags : List String :=
  ["new-message", "new-session", "delete-session", "update-session",
   "update-account", "update-machine", "new-machine", "new-artifact",
   "update-artifact", "delete-artifact", "relationship-updated",
   "new-feed-post", "kv-batch-update"]

/-- Embedding of `ApiUpdateSchema` (updates/index.ts): the discriminated
union of all durable update types, keyed by `t`. -/
def ApiUpdateSchema (L : StringLimits) : ZSchema :=
  zDiscriminatedUnion "t" (updateSchemaList L)

/-! Ephemeral event schemas.

The current revision of `ephemeral/events.ts` is not under `src/`: the copy
there predates the HAP-654/HAP-655/HAP-780 changes (its `activity` and
`machine-activity` variants still use an `id` field and it has no
`machine-disconnected` variant), and it is contradicted by
`helpers.test.ts` in the same package, whose fixtures typed
`ApiEphemeralUpdate` use `sid`, `machineId` and `machine-disconnected`.
The variant shapes below are therefore modelled from the spec, while the
union composition (`z.union`, a linear scan of alternatives) is taken from
the `ephemeral/events.ts` revision under `src/`, the only composition
evidence in the repository. -/

/-- Modelled from the spec: `ApiEphemeralActivityUpdateSchema` after HAP-654
(the session identifier field of the `activity` variant is `sid`); the other
fields follow `ephemeral/events.ts`. -/
def ApiEphemeralActivityUpdateSchema : ZSchema := zObject
  [("type", zReq (zLiteral "activity")),
   ("sid", zReq zString),
   ("active", zReq zBoolean),
   ("activeAt", zReq zNumber),
   ("thinking", zReq zBoolean)]

/-- Modelled from the spec: `ApiEphemeralUsageUpdateSchema` after HAP-654
(the session identifier field of the `usage` variant is `sid`).  The inner
token and cost records are modelled from the `helpers.test.ts` fixtures
(`total` required, the finer counters optional); no claim depends on them. -/
def ApiEphemeralUsageUpdateSchema : ZSchema := zObject
  [("type", zReq (zLiteral "usage")),
   ("sid", zReq zString),
   ("key", zReq zString),
   ("timestamp", zReq zNumber),
   ("tokens", zReq (zObject
      [("total", zReq zNumber),
       ("input", zOpt zNumber),
       ("output", zOpt zNumber),
       ("cache_creation", zOpt zNumber),
       ("cache_read", zOpt zNumber)])),
   ("cost", zReq (zObject
      [("total", zReq zNumber),
       ("input", zOpt zNumber),
       ("output", zOpt zNumber)]))]

/-- Modelled from the spec: `ApiEphemeralMachineActivityUpdateSchema` after
HAP-655 (the machine identifier field is `machineId`); the other fields
follow `ephemeral/events.ts`. -/
def ApiEphemeralMachineActivityUpdateSchema : ZSchema := zObject
  [("type", zReq (zLiteral "machine-activity")),
   ("machineId", zReq zString),
   ("active", zReq zBoolean),
   ("activeAt", zReq zNumber)]

/-- Embedding of `ApiEphemeralMachineStatusUpdateSchema`
(ephemeral/events.ts; this variant already used `machineId`). -/
def ApiEphemeralMachineStatusUpdateSchema : ZSchema := zObject
  [("type", zReq (zLiteral "machine-status")),
   ("machineId", zReq zString),
   ("online", zReq zBoolean),
   ("timestamp", zReq zNumber)]

/-- Modelled from the spec: the `machine-disconnected` ephemeral variant
added by HAP-780, with fields taken from the `helpers.test.ts` fixture
(`machineId`, `reason`, `timestamp`). -/
def ApiEphemeralMachineDisconnectedUpdateSchema : ZSchema := zObject
  [("type", zReq (zLiteral "machine-disconnected")),
   ("machineId", zReq zString),
   ("reason", zReq zString),
   ("timestamp", zReq zNumber)]

/-- The alternatives of the ephemeral union, in source order. -/
def ephemeralSchemaList : List ZSchema :=
  [ApiEphemeralActivityUpdateSchema,
   ApiEphemeralUsageUpdateSchema,
   ApiEphemeralMachineActivityUpdateSchema,
   ApiEphemeralMachineStatusUpdateSchema,
   ApiEphemeralMachineDisconnectedUpdateSchema]

/-- The discriminator (`type`) values of the ephemeral union. -/
def knownEphemeralTags : List String :=
  ["activity", "usage", "machine-activity", "machine-status",
   "machine-disconnected"]

/-- Embedding of `ApiEphemeralUpdateSchema` (ephemeral/events.ts): a plain
`z.union` over the ephemeral variants — not a `z.discriminatedUnion` — so
parsing tries the alternatives in order. -/
def ApiEphemeralUpdateSchema : ZSchema := zUnion ephemeralSchemaList

/-! Payload envelope schemas, translated from `payloads.ts` (the second
segment of `helpers.test.ts` under `src/`). -/

/-- Embedding of `ApiUpdateContainerSchema` (payloads.ts): the body must be a
fully valid durable update. -/
def ApiUpdateContainerSchema (L : StringLimits) : ZSchema := zObject
  [("id", zReq zString),
   ("seq", zReq zNumber),
   ("body", zReq (ApiUpdateSchema L)),
   ("createdAt", zReq zNumber)]

/-- Embedding of `UpdatePayloadSchema` (payloads.ts): the body is
`z.object({ t: z.string() }).passthrough()` — at runtime only the presence of
a string `t` field is checked (the `as z.ZodType<ApiUpdateType>` cast is
purely type-level) and every other body field passes through unvalidated. -/
def UpdatePayloadSchema : ZSchema := zObject
  [("id", zReq zString),
   ("seq", zReq zNumber),
   ("body", zReq (zObjectPassthrough [("t", zReq zString)])),
   ("createdAt", zReq zNumber)]

/-- Embedding of `EphemeralPayloadSchema` (payloads.ts): simply the
ephemeral union itself. -/
def EphemeralPayloadSchema : ZSchema := ApiEphemeralUpdateSchema

/-! Identifier accessor helpers.

The helper module itself (HAP-653) is not under `src/` — only its test file
`helpers.test.ts` is — so the helpers are modelled from the spec: `has<X>Id`
is true iff the value's discriminator is one of the statically known
variants that carry that identifier, `tryGet<X>Id` is total and returns the
identifier exactly for carrying variants, and `get<X>Id` has the
precondition `has<X>Id`; calling it on a non-carrying value is a programmer
fault (an invariant violation, modelled as the distinct `Fault` outcome),
never a silent empty string and never a recoverable validation result. -/

/-- A programmer fault, as distinct from a `ZodIssue` (which is recoverable
validation data). -/
inductive Fault where
  | invariantViolation
deriving Repr, DecidableEq

/-- Discriminator value of a durable update value (its `t` field). -/
def updateTag (v : JValue) : Option String :=
  match jLookup v "t" with
  | some (.str t) => some t
  | _ => none

/-- Modelled from the spec: the statically known durable update variants
whose schema carries a session identifier field `sid` (per the spec's
field-name table and the `helpers.test.ts` expectations). -/
def sessionIdUpdateTags : List String :=
  ["new-session", "update-session", "delete-session", "new-message"]

/-- Modelled from the spec: the statically known durable update variants
whose schema carries a machine identifier field `machineId`. -/
def machineIdUpdateTags : List String :=
  ["new-machine", "update-machine"]

/-- Modelled from the spec: `hasSessionId` — true iff the discriminator is a
session-carrying variant. -/
def hasSessionId (v : JValue) : Bool :=
  match updateTag v with
  | some t => sessionIdUpdateTags.contains t
  | none => false

/-- Modelled from the spec: `tryGetSessionId` — total; the session identifier
for carrying variants, `undefined` (here `none`) otherwise. -/
def tryGetSessionId (v : JValue) : Option String :=
  if hasSessionId v then
    match jLookup v "sid" with
    | some (.str s) => some s
    | _ => none
  else none

/-- Modelled from the spec: `getSessionId` — returns the identifier when the
`hasSessionId` precondition holds and fails loudly (invariant violation)
otherwise. -/
def getSessionId (v : JValue) : Except Fault String :=
  match tryGetSessionId v with
  | some s => .ok s
  | none => .error .invariantViolation

/-- Modelled from the spec: `hasMachineId` — true iff the discriminator is a
machine-carrying variant. -/
def hasMachineId (v : JValue) : Bool :=
  match updateTag v with
  | some t => machineIdUpdateTags.contains t
  | none => false

/-- Modelled from the spec: `tryGetMachineId` — total; the machine identifier
for carrying variants, `undefined` (here `none`) otherwise. -/
def tryGetMachineId (v : JValue) : Option String :=
  if hasMachineId v then
    match jLookup v "machineId" with
    | some (.str s) => some s
    | _ => none
  else none

/-- Modelled from the spec: `getMachineId` — returns the identifier when the
`hasMachineId` precondition holds and fails loudly (invariant violation)
otherwise. -/
def getMachineId (v : JValue) : Except Fault String :=
  match tryGetMachineId v with
  | some s => .ok s
  | none => .error .invariantViolation

/-- The accessor coverage contract of the spec, for one validated durable
update value: presence of a `sid` field coincides with `hasSessionId`,
`getSessionId`/`tryGetSessionId` return exactly that field's value, absence
makes `tryGetSessionId` return `undefined` (`none`); and the same for
`machineId` with `hasMachineId`, `getMachineId`, `tryGetMachineId`. -/
def accessorSpec (r : JValue) : Prop :=
  ((∃ s, jLookup r "sid" = some (.str s)) ↔ hasSessionId r = true)
  ∧ (∀ s, jLookup r "sid" = some (.str s) →
      getSessionId r = .ok s ∧ tryGetSessionId r = some s)
  ∧ (hasSessionId r = false → tryGetSessionId r = none)
  ∧ ((∃ m, jLookup r "machineId" = some (.str m)) ↔ hasMachineId r = true)
  ∧ (∀ m, jLookup r "machineId" = some (.str m) →
      getMachineId r = .ok m ∧ tryGetMachineId r = some m)
  ∧ (hasMachineId r = false → tryGetMachineId r = none)

/-! The github-casing lint rule, translated from
`packages/@happy/lint-rules/src/rules/github-casing.js`. -/

/-- Case-insensitive prefix test on character lists (the behaviour of a
case-insensitive regex literal match at the start of a string). -/
def ciIsPrefixOf : List Char → List Char → Bool
  | [], _ => true
  | _ :: _, [] => false
  | p :: ps, c :: cs => (p.toLower == c.toLower) && ciIsPrefixOf ps cs

/-- Substring containment on character lists — the behaviour of JavaScript's
`String.prototype.includes`. -/
def containsSub (needle : List Char) : List Char → Bool
  | [] => needle.isEmpty
  | c :: cs => needle.isPrefixOf (c :: cs) || containsSub needle cs

/-- Embedding of the regex test `/Github(?!ub)/i.test(name)` from
`hasIncorrectGithubCasing`: a case-insensitive occurrence of `github` whose
next two characters are not (case-insensitively) `ub`. -/
def githubRegexHit : List Char → Bool
  | [] => false
  | c :: cs =>
      (ciIsPrefixOf "github".data (c :: cs)
        && !(ciIsPrefixOf "ub".data ((c :: cs).drop 6)))
      || githubRegexHit cs

/-- Embedding of `hasIncorrectGithubCasing` (github-casing.js line 40):
`/Github(?!ub)/i.test(name) && name.includes('Github') && !name.includes('GitHub')`. -/
def hasIncorrectGithubCasing (name : String) : Bool :=
  githubRegexHit name.data
    && containsSub "Github".data name.data
    && !(containsSub "GitHub".data name.data)

/-- Embedding of `fixGithubCasing` (github-casing.js line 51): replaces each
occurrence of `Github` by `GitHub`. -/
def fixGithubCasing : List Char → List Char
  | [] => []
  | c :: cs =>
      if "Github".data.isPrefixOf (c :: cs) then
        "GitHub".data ++ fixGithubCasing ((c :: cs).drop 6)
      else
        c :: fixGithubCasing cs
termination_by l => l.length
decreasing_by
  all_goals simp_all [List.isPrefixOf]
  omega

/-! Concrete protocol values used by the individual properties. -/

/-- The new-message value of the spec's concrete scenario 1, with the
encrypted envelope exactly as the spec spells it:
`content: { tag: "encrypted", ciphertext: "abc" }`. -/
def scenario1SpecValue : JValue := .obj
  [("t", .str "new-message"),
   ("sid", .str "session-789"),
   ("message", .obj
      [("id", .str "msg-001"),
       ("seq", .num 1),
       ("content", .obj [("tag", .str "encrypted"), ("ciphertext", .str "abc")]),
       ("createdAt", .num 1700000000000)])]

/-- The same scenario-1 value with the envelope in the shape the code
actually accepts: `content: { t: "encrypted", c: "abc" }`. -/
def scenario1CodeValue : JValue := .obj
  [("t", .str "new-message"),
   ("sid", .str "session-789"),
   ("message", .obj
      [("id", .str "msg-001"),
       ("seq", .num 1),
       ("content", .obj [("t", .str "encrypted"), ("c", .str "abc")]),
       ("createdAt", .num 1700000000000)])]

/-- The parsed output of `scenario1CodeValue` (the absent nullish `localId`
is omitted). -/
def scenario1Parsed : JValue := .obj
  [("t", .str "new-message"),
   ("sid", .str "session-789"),
   ("message", .obj
      [("id", .str "msg-001"),
       ("seq", .num 1),
       ("content", .obj [("t", .str "encrypted"), ("c", .str "abc")]),
       ("createdAt", .num 1700000000000)])]

/-- The unknown-discriminator probe value of the spec's concrete scenario 3:
`{ t: "bogus-variant", foo: "bar" }`. -/
def bogusUpdateValue : JValue := .obj
  [("t", .str "bogus-variant"), ("foo", .str "bar")]

/-- A well-formed delete-session update, used to instantiate universally
quantified properties at a concrete durable update. -/
def deleteSessionValue : JValue := .obj
  [("t", .str "delete-session"), ("sid", .str "session-deleted")]

/-- A well-formed archive-session value (`t`, `sid`, `archivedAt`,
`archiveReason`), with a one-character `sid` so that it satisfies the
`min(1).max(ID_MAX)` bound for every positive `ID_MAX`. -/
def archiveSessionValue : JValue := .obj
  [("t", .str "archive-session"),
   ("sid", .str "s"),
   ("archivedAt", .num 1700000000000),
   ("archiveReason", .str "user_requested")]

/-- A well-formed delete-machine value (`t`, `machineId`). -/
def deleteMachineValue : JValue := .obj
  [("t", .str "delete-machine"), ("machineId", .str "m")]

/-- A string of `n` repetitions of `x`, for length-boundary probes. -/
def strOfLen (n : Nat) : String := String.mk (List.replicate n 'x')

/-- A new-session update whose `sid` is the given string; every other field
is held fixed, with the encrypted blobs empty or null so that only the `sid`
length is at stake. -/
def newSessionWithSid (sid : String) : JValue := .obj
  [("t", .str "new-session"),
   ("sid", .str sid),
   ("seq", .num 1),
   ("metadata", .str ""),
   ("metadataVersion", .num 1),
   ("agentState", .null),
   ("agentStateVersion", .num 0),
   ("dataEncryptionKey", .null),
   ("active", .bool true),
   ("activeAt", .num 0),
   ("createdAt", .num 0),
   ("updatedAt", .num 0)]

/-- A new-message update whose `sid` is the given string. -/
def newMessageWithSid (sid : String) : JValue := .obj
  [("t", .str "new-message"),
   ("sid", .str sid),
   ("message", .obj
      [("id", .str "msg-001"),
       ("seq", .num 1),
       ("content", .obj [("t", .str "encrypted"), ("c", .str "abc")]),
       ("createdAt", .num 1700000000000)])]

/-- The machine-disconnected ephemeral fixture of `helpers.test.ts`
(HAP-780), with a fixed timestamp. -/
def machineDisconnectedValue : JValue := .obj
  [("type", .str "machine-disconnected"),
   ("machineId", .str "machine-disconnected-id"),
   ("reason", .str "disconnected_by_user"),
   ("timestamp", .num 1700000000000)]

/-- An ephemeral probe whose `type` matches no known variant. -/
def bogusEphemeralValue : JValue := .obj
  [("type", .str "bogus-variant"), ("foo", .str "bar")]

/-- A malformed value of a known ephemeral variant: `type` is `activity` but
every other required field is missing. -/
def malformedActivityValue : JValue := .obj
  [("type", .str "activity")]

/-- An update payload whose body carries a string `t` plus a field no
durable update schema declares, and none of the fields `new-message`
requires: accepted by `UpdatePayloadSchema`, rejected by `ApiUpdateSchema`. -/
def partialBodyPayload : JValue := .obj
  [("id", .str "upd-1"),
   ("seq", .num 7),
   ("body", .obj [("t", .str "new-message"), ("garbage", .num 42)]),
   ("createdAt", .num 1700000000000)]

/-- The parsed output of `partialBodyPayload` under `UpdatePayloadSchema`:
the passthrough body keeps the undeclared `garbage` field. -/
def partialBodyPayloadParsed : JValue := .obj
  [("id", .str "upd-1"),
   ("seq", .num 7),
   ("body", .obj [("t", .str "new-message"), ("garbage", .num 42)]),
   ("createdAt", .num 1700000000000)]

/-- A container/payload value whose body is a fully valid durable update. -/
def fullBodyContainer : JValue := .obj
  [("id", .str "upd-2"),
   ("seq", .num 8),
   ("body", .obj [("t", .str "delete-session"), ("sid", .str "session-9")]),
   ("createdAt", .num 1700000000000)]

/-- The activity ephemeral fixture of `helpers.test.ts`, with a fixed
timestamp. -/
def activityEphemeralValue : JValue := .obj
  [("type", .str "activity"),
   ("sid", .str "session-activity"),
   ("active", .bool true),
   ("activeAt", .num 1700000000000),
   ("thinking", .bool false)]

/-- A well-formed update-account value (carries neither `sid` nor
`machineId`), from the `helpers.test.ts` fixtures. -/
def accountUpdateValue : JValue := .obj
  [("t", .str "update-account"),
   ("id", .str "user-123"),
   ("firstName", .str "Jane")]

/-- A well-formed new-machine value with a one-character `machineId`. -/
def newMachineValue : JValue := .obj
  [("t", .str "new-machine"),
   ("machineId", .str "m"),
   ("seq", .num 1),
   ("metadata", .str ""),
   ("metadataVersion", .num 1),
   ("daemonState", .null),
   ("daemonStateVersion", .num 0),
   ("dataEncryptionKey", .null),
   ("active", .bool true),
   ("activeAt", .num 0),
   ("createdAt", .num 0),
   ("updatedAt", .num 0)]

/-! General inversion lemmas about the parser combinators. -/

theorem exceptBind_ok {α β : Type} {e : Except ZodIssue α} {f : α → Except ZodIssue β} {b : β}
    (h : (e >>= f) = .ok b) : ∃ a, e = .ok a ∧ f a = .ok b := by
  cases e with
  | error i => simp [Bind.bind, Except.bind] at h
  | ok a => exact ⟨a, rfl, by simpa [Bind.bind, Except.bind] using h⟩

theorem runFields_nil_ok {kvs : List (String × JValue)} {outs : List (String × JValue)}
    (h : runFields kvs [] = .ok outs) : outs = [] := by
  simpa [runFields] using h.symm

theorem runFields_cons_ok {kvs : List (String × JValue)} {key : String} {fp : ZField}
    {rest : List (String × ZField)} {outs : List (String × JValue)}
    (h : runFields kvs ((key, fp) :: rest) = .ok outs) :
    ∃ r tail, fp (objLookup kvs key) = .ok r ∧ runFields kvs rest = .ok tail ∧
      outs = (match r with | some w => (key, w) :: tail | none => tail) := by
  unfold runFields at h
  obtain ⟨r, hr, h⟩ := exceptBind_ok h
  obtain ⟨tail, htail, h⟩ := exceptBind_ok h
  refine ⟨r, tail, hr, htail, ?_⟩
  cases r with
  | none => simpa using h.symm
  | some w => simpa using h.symm

theorem objLookup_cons_eq {k' k : String} {w : JValue} {t : List (String × JValue)}
    (h : (k' == k) = true) : objLookup ((k', w) :: t) k = some w := by
  simp [objLookup, List.find?, h]

theorem objLookup_cons_ne {k' k : String} {w : JValue} {t : List (String × JValue)}
    (h : (k' == k) = false) : objLookup ((k', w) :: t) k = objLookup t k := by
  simp [objLookup, List.find?, h]

theorem runFields_lookup_none {kvs : List (String × JValue)} :
    ∀ {fields : List (String × ZField)} {outs : List (String × JValue)} {k : String},
    runFields kvs fields = .ok outs →
    fields.find? (fun f => f.1 == k) = none →
    objLookup outs k = none
  | [], outs, k, h, _ => by
      rw [runFields_nil_ok h]; rfl
  | (key, fp) :: rest, outs, k, h, hfind => by
      obtain ⟨r, tail, _, htail, houts⟩ := runFields_cons_ok h
      by_cases hk : (key == k) = true
      · simp [List.find?_cons, hk] at hfind
      · have hk' : (key == k) = false := by simpa using hk
        simp only [List.find?_cons, hk'] at hfind
        have ihtail := runFields_lookup_none htail hfind
        cases r with
        | none => rw [houts]; exact ihtail
        | some w => rw [houts, objLookup_cons_ne hk']; exact ihtail

theorem runFields_lookup_some {kvs : List (String × JValue)} :
    ∀ {fields : List (String × ZField)} {outs : List (String × JValue)}
      {k key : String} {fp : ZField},
    runFields kvs fields = .ok outs →
    (fields.map (fun f => f.1)).Nodup →
    fields.find? (fun f => f.1 == k) = some (key, fp) →
    ∃ r, fp (objLookup kvs k) = .ok r ∧ objLookup outs k = r
  | [], _, _, _, _, _, _, hfind => by cases hfind
  | (key', fp') :: rest, outs, k, key, fp, h, nd, hfind => by
      obtain ⟨r, tail, hfp, htail, houts⟩ := runFields_cons_ok h
      have ndm : (key' :: rest.map (fun f => f.1)).Nodup := by simpa using nd
      have nd1 : key' ∉ rest.map (fun f => f.1) := (List.nodup_cons.mp ndm).1
      have nd2 : (rest.map (fun f => f.1)).Nodup := (List.nodup_cons.mp ndm).2
      by_cases hk : (key' == k) = true
      · simp only [List.find?_cons, hk] at hfind
        have hkey : key' = key ∧ fp' = fp := by
          constructor
          · exact congrArg Prod.fst (Option.some.inj hfind)
          · exact congrArg Prod.snd (Option.some.inj hfind)
        have hkk : key' = k := by simpa using hk
        refine ⟨r, by rw [← hkey.2]; rwa [hkk] at hfp, ?_⟩
        cases r with
        | some w => rw [houts, objLookup_cons_eq hk]
        | none =>
            rw [houts]
            have hnone : rest.find? (fun f => f.1 == k) = none := by
              rw [List.find?_eq_none]
              intro x hx hpx
              refine nd1 ?_
              have hx1 : x.1 = k := by simpa using hpx
              rw [← hkk] at hx1
              exact hx1 ▸ List.mem_map_of_mem (fun f => f.1) hx
            exact runFields_lookup_none htail hnone
      · have hk' : (key' == k) = false := by simpa using hk
        simp only [List.find?_cons, hk'] at hfind
        obtain ⟨r', hr', hout⟩ := runFields_lookup_some htail nd2 hfind
        refine ⟨r', hr', ?_⟩
        cases r with
        | some w => rw [houts, objLookup_cons_ne hk']; exact hout
        | none => rw [houts]; exact hout

theorem zObject_ok {fields : List (String × ZField)} {v r : JValue}
    (h : zObject fields v = .ok r) :
    ∃ kvs outs, v = .obj kvs ∧ runFields kvs fields = .ok outs ∧ r = .obj outs := by
  unfold zObject at h
  cases v with
  | obj kvs =>
      replace h : Except.map JValue.obj (runFields kvs fields) = .ok r := h
      cases hrf : runFields kvs fields with
      | error i => rw [hrf] at h; simp [Except.map] at h
      | ok outs =>
          rw [hrf] at h
          exact ⟨kvs, outs, rfl, hrf, by simpa [Except.map] using h.symm⟩
  | null => simp at h
  | bool b => simp at h
  | num n => simp at h
  | str s => simp at h
  | arr xs => simp at h

theorem zReq_ok {p : ZSchema} {ov : Option JValue} {r : Option JValue}
    (h : zReq p ov = .ok r) : ∃ v w, ov = some v ∧ p v = .ok w ∧ r = some w := by
  cases ov with
  | none => simp [zReq] at h
  | some v =>
      cases hp : p v with
      | error i => rw [zReq, hp] at h; simp [Except.map] at h
      | ok w =>
          refine ⟨v, w, rfl, hp, ?_⟩
          rw [zReq, hp] at h
          simpa [Except.map] using h.symm

theorem zLiteral_ok {s : String} {v w : JValue} (h : zLiteral s v = .ok w) :
    v = .str s ∧ w = .str s := by
  cases v with
  | str t =>
      by_cases ht : (t == s) = true
      · have : t = s := by simpa using ht
        subst this
        refine ⟨rfl, ?_⟩
        rw [zLiteral] at h
        simp at h
        simpa using h.symm
      · rw [zLiteral] at h
        simp [ht] at h
  | null => simp [zLiteral] at h
  | bool b => simp [zLiteral] at h
  | num n => simp [zLiteral] at h
  | arr xs => simp [zLiteral] at h
  | obj fs => simp [zLiteral] at h

theorem zString_ok {v w : JValue} (h : zString v = .ok w) :
    ∃ s, v = .str s ∧ w = .str s := by
  cases v with
  | str s => exact ⟨s, rfl, by simpa [zString] using h.symm⟩
  | null => simp [zString] at h
  | bool b => simp [zString] at h
  | num n => simp [zString] at h
  | arr xs => simp [zString] at h
  | obj fs => simp [zString] at h

theorem zStringMinMax_ok {mn mx : Nat} {v w : JValue} (h : zStringMinMax mn mx v = .ok w) :
    ∃ s, v = .str s ∧ w = .str s := by
  cases v with
  | str s =>
      refine ⟨s, rfl, ?_⟩
      rw [zStringMinMax] at h
      by_cases h1 : s.length < mn
      · simp [h1] at h
      · by_cases h2 : s.length > mx
        · simp [h1, h2] at h
        · simp [h1, h2] at h; exact h.symm
  | null => simp [zStringMinMax] at h
  | bool b => simp [zStringMinMax] at h
  | num n => simp [zStringMinMax] at h
  | arr xs => simp [zStringMinMax] at h
  | obj fs => simp [zStringMinMax] at h

/-! Field-level corollaries used by the per-variant shape lemmas. -/

theorem outs_req_string (k : String) {kvs : List (String × JValue)}
    {fields : List (String × ZField)} {outs : List (String × JValue)} {p : ZSchema}
    (hrf : runFields kvs fields = .ok outs)
    (nd : (fields.map (fun f => f.1)).Nodup)
    (hfind : fields.find? (fun f => f.1 == k) = some (k, zReq p))
    (hp : ∀ v w, p v = .ok w → ∃ s, v = .str s ∧ w = .str s) :
    ∃ s, objLookup kvs k = some (.str s) ∧ objLookup outs k = some (.str s) := by
  obtain ⟨r, hfp, hout⟩ := runFields_lookup_some hrf nd hfind
  obtain ⟨v, w, hov, hpw, hr⟩ := zReq_ok hfp
  obtain ⟨s, hv, hw⟩ := hp v w hpw
  exact ⟨s, by rw [hov, hv], by rw [hout, hr, hw]⟩

theorem outs_req_lit (k τ : String) {kvs : List (String × JValue)}
    {fields : List (String × ZField)} {outs : List (String × JValue)}
    (hrf : runFields kvs fields = .ok outs)
    (nd : (fields.map (fun f => f.1)).Nodup)
    (hfind : fields.find? (fun f => f.1 == k) = some (k, zReq (zLiteral τ))) :
    objLookup kvs k = some (.str τ) ∧ objLookup outs k = some (.str τ) := by
  obtain ⟨r, hfp, hout⟩ := runFields_lookup_some hrf nd hfind
  obtain ⟨v, w, hov, hpw, hr⟩ := zReq_ok hfp
  obtain ⟨hv, hw⟩ := zLiteral_ok hpw
  exact ⟨by rw [hov, hv], by rw [hout, hr, hw]⟩

theorem outs_req_any (k : String) {kvs : List (String × JValue)}
    {fields : List (String × ZField)} {outs : List (String × JValue)} {p : ZSchema}
    (hrf : runFields kvs fields = .ok outs)
    (nd : (fields.map (fun f => f.1)).Nodup)
    (hfind : fields.find? (fun f => f.1 == k) = some (k, zReq p)) :
    ∃ b w, objLookup kvs k = some b ∧ p b = .ok w := by
  obtain ⟨r, hfp, _⟩ := runFields_lookup_some hrf nd hfind
  obtain ⟨b, w, hov, hb, _⟩ := zReq_ok hfp
  exact ⟨b, w, hov, hb⟩

theorem nodup_keys_from (ks : List String) {kvs : List (String × JValue)}
    {outs : List (String × JValue)} {fields : List (String × ZField)}
    (_hrf : runFields kvs fields = .ok outs)
    (h : fields.map (fun f => f.1) = ks) (hk : ks.Nodup) :
    (fields.map (fun f => f.1)).Nodup := h ▸ hk

/-! Evaluation lemmas for the accessor helpers on a validated object. -/

theorem updateTag_obj {outs : List (String × JValue)} {τ : String}
    (ht : objLookup outs "t" = some (.str τ)) : updateTag (.obj outs) = some τ := by
  simp [updateTag, jLookup, ht]

theorem hasSessionId_obj {outs : List (String × JValue)} {τ : String}
    (ht : objLookup outs "t" = some (.str τ)) :
    hasSessionId (.obj outs) = sessionIdUpdateTags.contains τ := by
  simp [hasSessionId, updateTag_obj ht]

theorem hasMachineId_obj {outs : List (String × JValue)} {τ : String}
    (ht : objLookup outs "t" = some (.str τ)) :
    hasMachineId (.obj outs) = machineIdUpdateTags.contains τ := by
  simp [hasMachineId, updateTag_obj ht]

/-- Accessor contract for a validated variant carrying neither identifier. -/
theorem accessorSpec_of_none_none {r : JValue} {outs : List (String × JValue)} {τ : String}
    (hr : r = .obj outs) (ht : objLookup outs "t" = some (.str τ))
    (hsid : objLookup outs "sid" = none) (hmid : objLookup outs "machineId" = none)
    (hs : sessionIdUpdateTags.contains τ = false)
    (hm : machineIdUpdateTags.contains τ = false) :
    accessorSpec r := by
  subst hr
  have hhs : hasSessionId (.obj outs) = false := by rw [hasSessionId_obj ht, hs]
  have hhm : hasMachineId (.obj outs) = false := by rw [hasMachineId_obj ht, hm]
  refine ⟨?_, ?_, ?_, ?_, ?_, ?_⟩
  · constructor
    · rintro ⟨s, habs⟩; rw [show jLookup (.obj outs) "sid" = none from hsid] at habs; cases habs
    · intro habs; rw [hhs] at habs; cases habs
  · intro s habs; rw [show jLookup (.obj outs) "sid" = none from hsid] at habs; cases habs
  · intro _; simp [tryGetSessionId, hhs]
  · constructor
    · rintro ⟨m, habs⟩; rw [show jLookup (.obj outs) "machineId" = none from hmid] at habs; cases habs
    · intro habs; rw [hhm] at habs; cases habs
  · intro m habs; rw [show jLookup (.obj outs) "machineId" = none from hmid] at habs; cases habs
  · intro _; simp [tryGetMachineId, hhm]

/-- Accessor contract for a validated session-carrying variant. -/
theorem accessorSpec_of_sid {r : JValue} {outs : List (String × JValue)} {τ s : String}
    (hr : r = .obj outs) (ht : objLookup outs "t" = some (.str τ))
    (hsid : objLookup outs "sid" = some (.str s)) (hmid : objLookup outs "machineId" = none)
    (hs : sessionIdUpdateTags.contains τ = true)
    (hm : machineIdUpdateTags.contains τ = false) :
    accessorSpec r := by
  subst hr
  have hhs : hasSessionId (.obj outs) = true := by rw [hasSessionId_obj ht, hs]
  have hhm : hasMachineId (.obj outs) = false := by rw [hasMachineId_obj ht, hm]
  have htry : tryGetSessionId (.obj outs) = some s := by
    simp [tryGetSessionId, hhs, jLookup, hsid]
  refine ⟨⟨fun _ => hhs, fun _ => ⟨s, hsid⟩⟩, ?_, ?_, ?_, ?_, ?_⟩
  · intro s' hs'
    have : s' = s := by
      rw [show jLookup (.obj outs) "sid" = some (.str s) from hsid] at hs'
      cases hs'; rfl
    subst this
    exact ⟨by simp [getSessionId, htry], htry⟩
  · intro habs; rw [hhs] at habs; cases habs
  · constructor
    · rintro ⟨m, habs⟩; rw [show jLookup (.obj outs) "machineId" = none from hmid] at habs; cases habs
    · intro habs; rw [hhm] at habs; cases habs
  · intro m habs; rw [show jLookup (.obj outs) "machineId" = none from hmid] at habs; cases habs
  · intro _; simp [tryGetMachineId, hhm]

/-- Accessor contract for a validated machine-carrying variant. -/
theorem accessorSpec_of_mid {r : JValue} {outs : List (String × JValue)} {τ m : String}
    (hr : r = .obj outs) (ht : objLookup outs "t" = some (.str τ))
    (hsid : objLookup outs "sid" = none) (hmid : objLookup outs "machineId" = some (.str m))
    (hs : sessionIdUpdateTags.contains τ = false)
    (hm : machineIdUpdateTags.contains τ = true) :
    accessorSpec r := by
  subst hr
  have hhs : hasSessionId (.obj outs) = false := by rw [hasSessionId_obj ht, hs]
  have hhm : hasMachineId (.obj outs) = true := by rw [hasMachineId_obj ht, hm]
  have htry : tryGetMachineId (.obj outs) = some m := by
    simp [tryGetMachineId, hhm, jLookup, hmid]
  refine ⟨?_, ?_, ?_, ⟨fun _ => hhm, fun _ => ⟨m, hmid⟩⟩, ?_, ?_⟩
  · constructor
    · rintro ⟨s, habs⟩; rw [show jLookup (.obj outs) "sid" = none from hsid] at habs; cases habs
    · intro habs; rw [hhs] at habs; cases habs
  · intro s habs; rw [show jLookup (.obj outs) "sid" = none from hsid] at habs; cases habs
  · intro _; simp [tryGetSessionId, hhs]
  · intro m' hm'
    have : m' = m := by
      rw [show jLookup (.obj outs) "machineId" = some (.str m) from hmid] at hm'
      cases hm'; rfl
    subst this
    exact ⟨by simp [getMachineId, htry], htry⟩
  · intro habs; rw [hhm] at habs; cases habs

/-! Accessor coverage for each durable update variant. -/

theorem accessor_newMessage {v r : JValue} (h : ApiUpdateNewMessageSchema v = .ok r) :
    accessorSpec r := by
  obtain ⟨kvs, outs, hv, hrf, hr⟩ := zObject_ok h
  obtain ⟨s, _, hsid⟩ := outs_req_string "sid" hrf (by decide) rfl (fun v w hw => zString_ok hw)
  exact accessorSpec_of_sid hr (outs_req_lit "t" "new-message" hrf (by decide) rfl).2 hsid
    (runFields_lookup_none hrf rfl) (by decide) (by decide)

theorem accessor_newSession {L : StringLimits} {v r : JValue}
    (h : ApiUpdateNewSessionSchema L v = .ok r) : accessorSpec r := by
  obtain ⟨kvs, outs, hv, hrf, hr⟩ := zObject_ok h
  have nd := nodup_keys_from ["t", "sid", "seq", "metadata", "metadataVersion", "agentState", "agentStateVersion", "dataEncryptionKey", "active", "activeAt", "createdAt", "updatedAt"] hrf rfl (by decide)
  obtain ⟨s, _, hsid⟩ := outs_req_string "sid" hrf nd rfl (fun v w hw => zStringMinMax_ok hw)
  exact accessorSpec_of_sid hr (outs_req_lit "t" "new-session" hrf nd rfl).2 hsid
    (runFields_lookup_none hrf rfl) (by decide) (by decide)

theorem accessor_deleteSession {v r : JValue} (h : ApiDeleteSessionSchema v = .ok r) :
    accessorSpec r := by
  obtain ⟨kvs, outs, hv, hrf, hr⟩ := zObject_ok h
  obtain ⟨s, _, hsid⟩ := outs_req_string "sid" hrf (by decide) rfl (fun v w hw => zString_ok hw)
  exact accessorSpec_of_sid hr (outs_req_lit "t" "delete-session" hrf (by decide) rfl).2 hsid
    (runFields_lookup_none hrf rfl) (by decide) (by decide)

theorem accessor_updateSession {L : StringLimits} {v r : JValue}
    (h : ApiUpdateSessionStateSchema L v = .ok r) : accessorSpec r := by
  obtain ⟨kvs, outs, hv, hrf, hr⟩ := zObject_ok h
  have nd := nodup_keys_from ["t", "sid", "agentState", "metadata"] hrf rfl (by decide)
  obtain ⟨s, _, hsid⟩ := outs_req_string "sid" hrf nd rfl (fun v w hw => zStringMinMax_ok hw)
  exact accessorSpec_of_sid hr (outs_req_lit "t" "update-session" hrf nd rfl).2 hsid
    (runFields_lookup_none hrf rfl) (by decide) (by decide)

theorem accessor_updateAccount {v r : JValue} (h : ApiUpdateAccountSchema v = .ok r) :
    accessorSpec r := by
  obtain ⟨kvs, outs, hv, hrf, hr⟩ := zObject_ok h
  exact accessorSpec_of_none_none hr (outs_req_lit "t" "update-account" hrf (by decide) rfl).2
    (runFields_lookup_none hrf rfl) (runFields_lookup_none hrf rfl) (by decide) (by decide)

theorem accessor_updateMachine {L : StringLimits} {v r : JValue}
    (h : ApiUpdateMachineStateSchema L v = .ok r) : accessorSpec r := by
  obtain ⟨kvs, outs, hv, hrf, hr⟩ := zObject_ok h
  have nd := nodup_keys_from ["t", "machineId", "metadata", "daemonState", "active", "activeAt"] hrf rfl (by decide)
  obtain ⟨m, _, hmid⟩ := outs_req_string "machineId" hrf nd rfl (fun v w hw => zStringMinMax_ok hw)
  exact accessorSpec_of_mid hr (outs_req_lit "t" "update-machine" hrf nd rfl).2
    (runFields_lookup_none hrf rfl) hmid (by decide) (by decide)

theorem accessor_newMachine {L : StringLimits} {v r : JValue}
    (h : ApiNewMachineSchema L v = .ok r) : accessorSpec r := by
  obtain ⟨kvs, outs, hv, hrf, hr⟩ := zObject_ok h
  have nd := nodup_keys_from ["t", "machineId", "seq", "metadata", "metadataVersion", "daemonState", "daemonStateVersion", "dataEncryptionKey", "active", "activeAt", "createdAt", "updatedAt"] hrf rfl (by decide)
  obtain ⟨m, _, hmid⟩ := outs_req_string "machineId" hrf nd rfl (fun v w hw => zStringMinMax_ok hw)
  exact accessorSpec_of_mid hr (outs_req_lit "t" "new-machine" hrf nd rfl).2
    (runFields_lookup_none hrf rfl) hmid (by decide) (by decide)

theorem accessor_newArtifact {v r : JValue} (h : ApiNewArtifactSchema v = .ok r) :
    accessorSpec r := by
  obtain ⟨kvs, outs, hv, hrf, hr⟩ := zObject_ok h
  exact accessorSpec_of_none_none hr (outs_req_lit "t" "new-artifact" hrf (by decide) rfl).2
    (runFields_lookup_none hrf rfl) (runFields_lookup_none hrf rfl) (by decide) (by decide)

theorem accessor_updateArtifact {v r : JValue} (h : ApiUpdateArtifactSchema v = .ok r) :
    accessorSpec r := by
  obtain ⟨kvs, outs, hv, hrf, hr⟩ := zObject_ok h
  exact accessorSpec_of_none_none hr (outs_req_lit "t" "update-artifact" hrf (by decide) rfl).2
    (runFields_lookup_none hrf rfl) (runFields_lookup_none hrf rfl) (by decide) (by decide)

theorem accessor_deleteArtifact {v r : JValue} (h : ApiDeleteArtifactSchema v = .ok r) :
    accessorSpec r := by
  obtain ⟨kvs, outs, hv, hrf, hr⟩ := zObject_ok h
  exact accessorSpec_of_none_none hr (outs_req_lit "t" "delete-artifact" hrf (by decide) rfl).2
    (runFields_lookup_none hrf rfl) (runFields_lookup_none hrf rfl) (by decide) (by decide)

theorem accessor_relationshipUpdated {v r : JValue}
    (h : ApiRelationshipUpdatedSchema v = .ok r) : accessorSpec r := by
  obtain ⟨kvs, outs, hv, hrf, hr⟩ := zObject_ok h
  exact accessorSpec_of_none_none hr (outs_req_lit "t" "relationship-updated" hrf (by decide) rfl).2
    (runFields_lookup_none hrf rfl) (runFields_lookup_none hrf rfl) (by decide) (by decide)

theorem accessor_newFeedPost {v r : JValue} (h : ApiNewFeedPostSchema v = .ok r) :
    accessorSpec r := by
  obtain ⟨kvs, outs, hv, hrf, hr⟩ := zObject_ok h
  exact accessorSpec_of_none_none hr (outs_req_lit "t" "new-feed-post" hrf (by decide) rfl).2
    (runFields_lookup_none hrf rfl) (runFields_lookup_none hrf rfl) (by decide) (by decide)

theorem accessor_kvBatchUpdate {v r : JValue} (h : ApiKvBatchUpdateSchema v = .ok r) :
    accessorSpec r := by
  obtain ⟨kvs, outs, hv, hrf, hr⟩ := zObject_ok h
  exact accessorSpec_of_none_none hr (outs_req_lit "t" "kv-batch-update" hrf (by decide) rfl).2
    (runFields_lookup_none hrf rfl) (runFields_lookup_none hrf rfl) (by decide) (by decide)

/-! Inversion of the durable update union. -/

theorem ApiUpdateSchema_ok {L : StringLimits} {v r : JValue}
    (h : ApiUpdateSchema L v = .ok r) :
    ∃ kvs tag o, v = .obj kvs ∧ objLookup kvs "t" = some (.str tag) ∧
      (updateSchemaList L).find? (fun f => f.1 == tag) = some o ∧ o.2 v = .ok r := by
  unfold ApiUpdateSchema zDiscriminatedUnion at h
  cases v with
  | obj kvs =>
      cases ht : objLookup kvs "t" with
      | none => simp only [ht] at h; cases h
      | some tv =>
          cases tv with
          | str tag =>
              simp only [ht] at h
              cases hf : (updateSchemaList L).find? (fun f => f.1 == tag) with
              | none => simp only [hf] at h; cases h
              | some o =>
                  simp only [hf] at h
                  exact ⟨kvs, tag, o, rfl, ht, hf, h⟩
          | null => simp only [ht] at h; cases h
          | bool b => simp only [ht] at h; cases h
          | num n => simp only [ht] at h; cases h
          | arr xs => simp only [ht] at h; cases h
          | obj fs => simp only [ht] at h; cases h
  | null => simp at h
  | bool b => simp at h
  | num n => simp at h
  | str s => simp at h
  | arr xs => simp at h

/-- C5: for every variant of the durable update union that structurally
contains a `sid` field in its validated value, `hasSessionId` returns true
and `getSessionId` returns exactly that field's value; for every variant
without a `sid` field, `hasSessionId` returns false and `tryGetSessionId`
returns `undefined` (`none`); and the same holds for `machineId` with
`hasMachineId`, `getMachineId` and `tryGetMachineId` — stated for every
value `r` validated by `ApiUpdateSchema`, through `accessorSpec r`.
The accessor helpers are modelled from the spec (the helper module is not
under `src/`; its behaviour is fixed by the spec and `helpers.test.ts`). -/
theorem c5_accessor_coverage (L : StringLimits) (v r : JValue)
    (h : ApiUpdateSchema L v = .ok r) : accessorSpec r := by
  obtain ⟨kvs, tag, o, hv, ht, hf, ho⟩ := ApiUpdateSchema_ok h
  have hmem := List.mem_of_find?_eq_some hf
  simp only [updateSchemaList, List.mem_cons, List.not_mem_nil, or_false] at hmem
  rcases hmem with rfl|rfl|rfl|rfl|rfl|rfl|rfl|rfl|rfl|rfl|rfl|rfl|rfl
  · exact accessor_newMessage ho
  · exact accessor_newSession ho
  · exact accessor_deleteSession ho
  · exact accessor_updateSession ho
  · exact accessor_updateAccount ho
  · exact accessor_updateMachine ho
  · exact accessor_newMachine ho
  · exact accessor_newArtifact ho
  · exact accessor_updateArtifact ho
  · exact accessor_deleteArtifact ho
  · exact accessor_relationshipUpdated ho
  · exact accessor_newFeedPost ho
  · exact accessor_kvBatchUpdate ho

/-- Witness for C5: the accessor contract instantiated on the concrete
validated new-machine update. -/
theorem c5_accessor_coverage_witness :
    accessorSpec (JValue.obj
      [("t", .str "new-machine"),
       ("machineId", .str "m"),
       ("seq", .num 1),
       ("metadata", .str ""),
       ("metadataVersion", .num 1),
       ("daemonState", .null),
       ("daemonStateVersion", .num 0),
       ("dataEncryptionKey", .null),
       ("active", .bool true),
       ("activeAt", .num 0),
       ("createdAt", .num 0),
       ("updatedAt", .num 0)]) :=
  c5_accessor_coverage specLimits newMachineValue _ rfl

/-- C2: for every input value, success of the durable update union
(`ApiUpdateSchema`, a `z.discriminatedUnion`) implies the value's `t` field
is exactly one of the thirteen known variant tags; and the probe
`{t:"bogus-variant", foo:"bar"}` with an unknown `t` fails with the distinct
unknown-discriminator issue, which is not the generic shape-violation issue
(`invalid_type`). -/
theorem c2_discriminator_exhaustive :
    (∀ (L : StringLimits) (v r : JValue), ApiUpdateSchema L v = .ok r →
        ∃ tag, updateTag v = some tag ∧ tag ∈ knownUpdateTags)
    ∧ (∀ L : StringLimits,
        ApiUpdateSchema L bogusUpdateValue = .error .invalidUnionDiscriminator)
    ∧ ZodIssue.invalidUnionDiscriminator ≠ ZodIssue.invalidType := by
  refine ⟨?_, fun L => rfl, by decide⟩
  intro L v r h
  obtain ⟨kvs, tag, o, hv, ht, hf, _⟩ := ApiUpdateSchema_ok h
  refine ⟨tag, ?_, ?_⟩
  · subst hv; simp [updateTag, jLookup, ht]
  · have hmem := List.mem_of_find?_eq_some hf
    have htag : o.1 = tag := by simpa using List.find?_some hf
    have h1 : o.1 ∈ (updateSchemaList L).map (fun f => f.1) :=
      List.mem_map_of_mem (fun f => f.1) hmem
    rw [show (updateSchemaList L).map (fun f => f.1) = knownUpdateTags from rfl] at h1
    rwa [htag] at h1

/-- Witness for C2: the exhaustiveness clause applied to a concrete
validated delete-session update. -/
theorem c2_discriminator_exhaustive_witness :
    ∃ tag, updateTag deleteSessionValue = some tag ∧ tag ∈ knownUpdateTags :=
  c2_discriminator_exhaustive.1 specLimits deleteSessionValue
    (.obj [("t", .str "delete-session"), ("sid", .str "session-deleted")]) rfl

/-- C1, counterexample: the value of the claim, with the encrypted envelope
spelled `{tag: "encrypted", ciphertext: "abc"}` as the spec says, is
rejected by the durable update union — the code's envelope
(`EncryptedContentSchema`) requires the field names `t` and `c`, so the
required `t` literal is missing and validation fails with a shape
violation. -/
theorem c1_counterexample :
    ApiUpdateSchema specLimits scenario1SpecValue = .error .invalidType := rfl

/-- C1, amended: with the envelope in the shape the code accepts
(`content: {t: "encrypted", c: "abc"}`), validating the scenario-1
new-message value against the durable update union succeeds for every
choice of the string-length limits, `tryGetSessionId` on the validated
result returns `"session-789"`, and `hasMachineId` on it returns false. -/
theorem c1_amended (L : StringLimits) :
    ApiUpdateSchema L scenario1CodeValue = .ok scenario1Parsed
    ∧ tryGetSessionId scenario1Parsed = some "session-789"
    ∧ hasMachineId scenario1Parsed = false :=
  ⟨rfl, rfl, rfl⟩

/-- Witness for C1: the amended statement at the representative limits. -/
theorem c1_amended_witness :
    ApiUpdateSchema specLimits scenario1CodeValue = .ok scenario1Parsed
    ∧ tryGetSessionId scenario1Parsed = some "session-789"
    ∧ hasMachineId scenario1Parsed = false :=
  c1_amended specLimits

/-- C8: on every value that does not carry the requested identifier
(`has<X>Id` false), `get<X>Id` fails loudly with an invariant violation —
a `Fault`, a different type from the recoverable `ZodIssue` validation
results — and in particular never returns `.ok` of any string, so it never
silently returns an empty string. -/
theorem c8_accessor_fault :
    (∀ v : JValue, hasSessionId v = false →
        getSessionId v = .error .invariantViolation ∧ ∀ s, getSessionId v ≠ .ok s)
    ∧ (∀ v : JValue, hasMachineId v = false →
        getMachineId v = .error .invariantViolation ∧ ∀ s, getMachineId v ≠ .ok s) := by
  constructor
  · intro v h
    have ht : tryGetSessionId v = none := by simp [tryGetSessionId, h]
    refine ⟨by simp [getSessionId, ht], ?_⟩
    intro s habs
    simp [getSessionId, ht] at habs
  · intro v h
    have ht : tryGetMachineId v = none := by simp [tryGetMachineId, h]
    refine ⟨by simp [getMachineId, ht], ?_⟩
    intro s habs
    simp [getMachineId, ht] at habs

/-- Witness for C8: the fault contract at the concrete update-account value
(which carries neither identifier). -/
theorem c8_accessor_fault_witness :
    (getSessionId accountUpdateValue = .error .invariantViolation
      ∧ ∀ s, getSessionId accountUpdateValue ≠ .ok s)
    ∧ (getMachineId accountUpdateValue = .error .invariantViolation
      ∧ ∀ s, getMachineId accountUpdateValue ≠ .ok s) :=
  ⟨c8_accessor_fault.1 accountUpdateValue rfl,
   c8_accessor_fault.2 accountUpdateValue rfl⟩

/-- C10: for every identifier name that contains the substring `GitHub`, the
github-casing rule's detection function `hasIncorrectGithubCasing` returns
false — its last conjunct is `!name.includes('GitHub')` — even when the name
also contains the incorrectly cased `Github`, so such mixed-casing names are
never reported. -/
theorem c10_github_contains (name : String)
    (h : containsSub "GitHub".data name.data = true) :
    hasIncorrectGithubCasing name = false := by
  unfold hasIncorrectGithubCasing
  rw [h]
  simp

/-- Witness for C10: the mixed-casing identifier `GitHubToGithubSync`
contains both `GitHub` and `Github` but is not detected. -/
theorem c10_github_contains_witness :
    containsSub "GitHub".data "GitHubToGithubSync".data = true
    ∧ containsSub "Github".data "GitHubToGithubSync".data = true
    ∧ hasIncorrectGithubCasing "GitHubToGithubSync" = false :=
  ⟨rfl, rfl, c10_github_contains "GitHubToGithubSync" rfl⟩

/-! Inversion and failure lemmas for the ephemeral union. -/

theorem zUnionGo_ok {ps : List ZSchema} {v r : JValue} (h : zUnionGo ps v = .ok r) :
    ∃ p ∈ ps, p v = .ok r := by
  induction ps with
  | nil => cases h
  | cons p rest ih =>
      unfold zUnionGo at h
      cases hp : p v with
      | ok w =>
          simp only [hp] at h
          exact ⟨p, List.mem_cons_self p rest, by rw [hp, h]⟩
      | error e =>
          simp only [hp] at h
          obtain ⟨q, hq, hqv⟩ := ih h
          exact ⟨q, List.mem_cons_of_mem p hq, hqv⟩

theorem zUnionGo_all_error {ps : List ZSchema} {v : JValue}
    (h : ∀ p ∈ ps, ∃ e, p v = .error e) : zUnionGo ps v = .error .invalidUnion := by
  induction ps with
  | nil => rfl
  | cons p rest ih =>
      obtain ⟨e, he⟩ := h p (List.mem_cons_self p rest)
      unfold zUnionGo
      simp only [he]
      exact ih (fun q hq => h q (List.mem_cons_of_mem p hq))

theorem zObject_first_lit_mismatch {τ tag : String} {rest : List (String × ZField)}
    {kvs : List (String × JValue)}
    (hl : objLookup kvs "type" = some (.str tag)) (hne : (tag == τ) = false) :
    zObject (("type", zReq (zLiteral τ)) :: rest) (.obj kvs) = .error .invalidLiteral := by
  simp [zObject, runFields, hl, zReq, zLiteral, hne, Except.map, Bind.bind, Except.bind]

/-! Input-side shape of each validated ephemeral variant. -/

theorem eph_activity_shape {v r : JValue} (h : ApiEphemeralActivityUpdateSchema v = .ok r) :
    ∃ kvs, v = .obj kvs ∧ objLookup kvs "type" = some (.str "activity") ∧
      ∃ s, objLookup kvs "sid" = some (.str s) := by
  obtain ⟨kvs, outs, hv, hrf, _⟩ := zObject_ok h
  obtain ⟨s, hins, _⟩ := outs_req_string "sid" hrf (by decide) rfl (fun v w hw => zString_ok hw)
  exact ⟨kvs, hv, (outs_req_lit "type" "activity" hrf (by decide) rfl).1, s, hins⟩

theorem eph_usage_shape {v r : JValue} (h : ApiEphemeralUsageUpdateSchema v = .ok r) :
    ∃ kvs, v = .obj kvs ∧ objLookup kvs "type" = some (.str "usage") ∧
      ∃ s, objLookup kvs "sid" = some (.str s) := by
  obtain ⟨kvs, outs, hv, hrf, _⟩ := zObject_ok h
  obtain ⟨s, hins, _⟩ := outs_req_string "sid" hrf (by decide) rfl (fun v w hw => zString_ok hw)
  exact ⟨kvs, hv, (outs_req_lit "type" "usage" hrf (by decide) rfl).1, s, hins⟩

theorem eph_machineActivity_shape {v r : JValue}
    (h : ApiEphemeralMachineActivityUpdateSchema v = .ok r) :
    ∃ kvs, v = .obj kvs ∧ objLookup kvs "type" = some (.str "machine-activity") ∧
      ∃ m, objLookup kvs "machineId" = some (.str m) := by
  obtain ⟨kvs, outs, hv, hrf, _⟩ := zObject_ok h
  obtain ⟨m, hins, _⟩ := outs_req_string "machineId" hrf (by decide) rfl
    (fun v w hw => zString_ok hw)
  exact ⟨kvs, hv, (outs_req_lit "type" "machine-activity" hrf (by decide) rfl).1, m, hins⟩

theorem eph_machineStatus_shape {v r : JValue}
    (h : ApiEphemeralMachineStatusUpdateSchema v = .ok r) :
    ∃ kvs, v = .obj kvs ∧ objLookup kvs "type" = some (.str "machine-status") ∧
      ∃ m, objLookup kvs "machineId" = some (.str m) := by
  obtain ⟨kvs, outs, hv, hrf, _⟩ := zObject_ok h
  obtain ⟨m, hins, _⟩ := outs_req_string "machineId" hrf (by decide) rfl
    (fun v w hw => zString_ok hw)
  exact ⟨kvs, hv, (outs_req_lit "type" "machine-status" hrf (by decide) rfl).1, m, hins⟩

theorem eph_machineDisconnected_shape {v r : JValue}
    (h : ApiEphemeralMachineDisconnectedUpdateSchema v = .ok r) :
    ∃ kvs, v = .obj kvs ∧ objLookup kvs "type" = some (.str "machine-disconnected") ∧
      ∃ m, objLookup kvs "machineId" = some (.str m) := by
  obtain ⟨kvs, outs, hv, hrf, _⟩ := zObject_ok h
  obtain ⟨m, hins, _⟩ := outs_req_string "machineId" hrf (by decide) rfl
    (fun v w hw => zString_ok hw)
  exact ⟨kvs, hv, (outs_req_lit "type" "machine-disconnected" hrf (by decide) rfl).1, m, hins⟩

/-- C3: for ephemeral events, validation of the `activity` and `usage`
variants requires the session identifier under the field name `sid`, and
validation of the `machine-activity`, `machine-status` and
`machine-disconnected` variants requires the machine identifier under the
field name `machineId` (success of the union on a value of that `type`
implies the field is present as a string); and `machine-disconnected` is a
member variant of the ephemeral union (a well-formed value validates).
The current ephemeral schema file is modelled from the spec (the copy under
`src/` predates HAP-654/655/780 and contradicts `helpers.test.ts`). -/
theorem c3_ephemeral_identifier_fields :
    (∀ (v r : JValue) (kvs : List (String × JValue)),
        ApiEphemeralUpdateSchema v = .ok r → v = .obj kvs →
        ((objLookup kvs "type" = some (.str "activity")
            ∨ objLookup kvs "type" = some (.str "usage")) →
          ∃ s, objLookup kvs "sid" = some (.str s))
        ∧ ((objLookup kvs "type" = some (.str "machine-activity")
            ∨ objLookup kvs "type" = some (.str "machine-status")
            ∨ objLookup kvs "type" = some (.str "machine-disconnected")) →
          ∃ m, objLookup kvs "machineId" = some (.str m)))
    ∧ ApiEphemeralUpdateSchema machineDisconnectedValue = .ok machineDisconnectedValue := by
  refine ⟨?_, rfl⟩
  intro v r kvs h hv
  obtain ⟨p, hp, hpv⟩ :=
    zUnionGo_ok (show zUnionGo ephemeralSchemaList v = .ok r from h)
  simp only [ephemeralSchemaList, List.mem_cons, List.not_mem_nil, or_false] at hp
  rcases hp with rfl|rfl|rfl|rfl|rfl
  · obtain ⟨kvs1, hv1, htype, s, hsid⟩ := eph_activity_shape hpv
    rw [hv] at hv1
    cases JValue.obj.inj hv1
    refine ⟨fun _ => ⟨s, hsid⟩, ?_⟩
    intro hd
    rcases hd with h1|h1|h1 <;> (rw [htype] at h1; simp at h1)
  · obtain ⟨kvs1, hv1, htype, s, hsid⟩ := eph_usage_shape hpv
    rw [hv] at hv1
    cases JValue.obj.inj hv1
    refine ⟨fun _ => ⟨s, hsid⟩, ?_⟩
    intro hd
    rcases hd with h1|h1|h1 <;> (rw [htype] at h1; simp at h1)
  · obtain ⟨kvs1, hv1, htype, m, hmid⟩ := eph_machineActivity_shape hpv
    rw [hv] at hv1
    cases JValue.obj.inj hv1
    refine ⟨?_, fun _ => ⟨m, hmid⟩⟩
    intro hd
    rcases hd with h1|h1 <;> (rw [htype] at h1; simp at h1)
  · obtain ⟨kvs1, hv1, htype, m, hmid⟩ := eph_machineStatus_shape hpv
    rw [hv] at hv1
    cases JValue.obj.inj hv1
    refine ⟨?_, fun _ => ⟨m, hmid⟩⟩
    intro hd
    rcases hd with h1|h1 <;> (rw [htype] at h1; simp at h1)
  · obtain ⟨kvs1, hv1, htype, m, hmid⟩ := eph_machineDisconnected_shape hpv
    rw [hv] at hv1
    cases JValue.obj.inj hv1
    refine ⟨?_, fun _ => ⟨m, hmid⟩⟩
    intro hd
    rcases hd with h1|h1 <;> (rw [htype] at h1; simp at h1)

/-- Witness for C3: the `sid` requirement instantiated on the concrete
validated activity event. -/
theorem c3_ephemeral_identifier_fields_witness :
    ∃ s, objLookup
      [("type", JValue.str "activity"),
       ("sid", JValue.str "session-activity"),
       ("active", JValue.bool true),
       ("activeAt", JValue.num 1700000000000),
       ("thinking", JValue.bool false)] "sid" = some (.str s) :=
  ((c3_ephemeral_identifier_fields.1 activityEphemeralValue activityEphemeralValue
      _ rfl rfl).1 (Or.inl rfl))

theorem updateFind_none {L : StringLimits} {tag : String} (h : tag ∉ knownUpdateTags) :
    (updateSchemaList L).find? (fun f => f.1 == tag) = none := by
  rw [List.find?_eq_none]
  intro x hx hpx
  have hx1 : x.1 = tag := by simpa using hpx
  apply h
  rw [← hx1]
  have hm := List.mem_map_of_mem (fun f => f.1) hx
  rwa [show (updateSchemaList L).map (fun f => f.1) = knownUpdateTags from rfl] at hm

/-- C7, counterexample: an ephemeral value whose `type` matches no known
variant fails with the generic `invalid_union` issue of `z.union` — the same
issue a malformed value of a known variant produces — not with a distinct
unknown-variant condition, because the ephemeral union is a plain `z.union`,
not a discriminator-keyed lookup. -/
theorem c7_counterexample :
    ApiEphemeralUpdateSchema bogusEphemeralValue = .error .invalidUnion
    ∧ ApiEphemeralUpdateSchema malformedActivityValue = .error .invalidUnion
    ∧ ZodIssue.invalidUnion ≠ ZodIssue.invalidUnionDiscriminator :=
  ⟨rfl, rfl, by decide⟩

/-- C7, amended: ephemeral union validation tries the variant alternatives
in order (`z.union`, a linear scan), and an input whose `type` matches no
known variant fails with the generic `invalid_union` issue; only the durable
update union (`z.discriminatedUnion`) dispatches on its discriminator and
fails with the distinct `invalid_union_discriminator` issue on an unknown
tag. -/
theorem c7_amended :
    (∀ (kvs : List (String × JValue)) (tag : String),
        objLookup kvs "type" = some (.str tag) → tag ∉ knownEphemeralTags →
        ApiEphemeralUpdateSchema (.obj kvs) = .error .invalidUnion)
    ∧ (∀ (L : StringLimits) (kvs : List (String × JValue)) (tag : String),
        objLookup kvs "t" = some (.str tag) → tag ∉ knownUpdateTags →
        ApiUpdateSchema L (.obj kvs) = .error .invalidUnionDiscriminator) := by
  constructor
  · intro kvs tag hl hne
    have hn : ∀ τ, τ ∈ knownEphemeralTags → (tag == τ) = false := by
      intro τ hτ
      rw [beq_eq_false_iff_ne]
      intro he
      exact hne (he ▸ hτ)
    show zUnionGo ephemeralSchemaList (.obj kvs) = .error .invalidUnion
    apply zUnionGo_all_error
    intro p hp
    simp only [ephemeralSchemaList, List.mem_cons, List.not_mem_nil, or_false] at hp
    rcases hp with rfl|rfl|rfl|rfl|rfl
    · exact ⟨_, zObject_first_lit_mismatch hl (hn "activity" (by decide))⟩
    · exact ⟨_, zObject_first_lit_mismatch hl (hn "usage" (by decide))⟩
    · exact ⟨_, zObject_first_lit_mismatch hl (hn "machine-activity" (by decide))⟩
    · exact ⟨_, zObject_first_lit_mismatch hl (hn "machine-status" (by decide))⟩
    · exact ⟨_, zObject_first_lit_mismatch hl (hn "machine-disconnected" (by decide))⟩
  · intro L kvs tag hl hne
    unfold ApiUpdateSchema zDiscriminatedUnion
    simp only [hl, updateFind_none hne]

/-- Witness for C7: the amended statement at the two concrete bogus-tag
probes. -/
theorem c7_amended_witness :
    ApiEphemeralUpdateSchema
      (.obj [("type", .str "bogus-variant"), ("foo", .str "bar")]) = .error .invalidUnion
    ∧ ApiUpdateSchema specLimits
      (.obj [("t", .str "bogus-variant"), ("foo", .str "bar")]) =
        .error .invalidUnionDiscriminator :=
  ⟨c7_amended.1 _ "bogus-variant" rfl (by decide),
   c7_amended.2 specLimits _ "bogus-variant" rfl (by decide)⟩

/-! Length-boundary evaluation lemmas. -/

theorem strOfLen_length (n : Nat) : (strOfLen n).length = n := by
  simp [strOfLen, String.length]

/-- C4, counterexample: a well-formed archive-session value — it validates
against its own schema `ApiArchiveSessionSchema` — is rejected by the
durable update union with the unknown-discriminator issue, because
`updates/index.ts` does not list `ApiArchiveSessionSchema` among the union's
options. -/
theorem c4_counterexample :
    ApiArchiveSessionSchema specLimits archiveSessionValue = .ok archiveSessionValue
    ∧ ApiUpdateSchema specLimits archiveSessionValue = .error .invalidUnionDiscriminator :=
  ⟨rfl, rfl⟩

/-- C4, amended: the durable update union has exactly the thirteen variants
listed in `updates/index.ts`; `archive-session` and `delete-machine` are not
members. Their schemas exist elsewhere in the repository and accept the
well-formed values on their own, but `ApiUpdateSchema` rejects both values
with the unknown-discriminator issue. -/
theorem c4_amended (L : StringLimits) (h : 1 ≤ L.ID_MAX) :
    ApiArchiveSessionSchema L archiveSessionValue = .ok archiveSessionValue
    ∧ ApiDeleteMachineSchema L deleteMachineValue = .ok deleteMachineValue
    ∧ ApiUpdateSchema L archiveSessionValue = .error .invalidUnionDiscriminator
    ∧ ApiUpdateSchema L deleteMachineValue = .error .invalidUnionDiscriminator
    ∧ "archive-session" ∉ knownUpdateTags
    ∧ "delete-machine" ∉ knownUpdateTags
    ∧ knownUpdateTags.length = 13 := by
  have hs : zStringMinMax 1 L.ID_MAX (.str "s") = .ok (.str "s") := by
    simp only [zStringMinMax, show ("s".length) = 1 from rfl]
    rw [if_neg (by omega), if_neg (by omega)]
  have hm : zStringMinMax 1 L.ID_MAX (.str "m") = .ok (.str "m") := by
    simp only [zStringMinMax, show ("m".length) = 1 from rfl]
    rw [if_neg (by omega), if_neg (by omega)]
  refine ⟨?_, ?_, rfl, rfl, by decide, by decide, rfl⟩
  · simp [ApiArchiveSessionSchema, zObject, archiveSessionValue, runFields, objLookup,
      zReq, zLiteral, zEnum, zNumber, ArchiveReasonSchema, hs,
      Except.map, Bind.bind, Except.bind]
  · simp [ApiDeleteMachineSchema, zObject, deleteMachineValue, runFields, objLookup,
      zReq, zLiteral, hm, Except.map, Bind.bind, Except.bind]

/-- Witness for C4: the amended statement at the representative limits. -/
theorem c4_amended_witness :
    ApiArchiveSessionSchema specLimits archiveSessionValue = .ok archiveSessionValue
    ∧ ApiDeleteMachineSchema specLimits deleteMachineValue = .ok deleteMachineValue
    ∧ ApiUpdateSchema specLimits archiveSessionValue = .error .invalidUnionDiscriminator
    ∧ ApiUpdateSchema specLimits deleteMachineValue = .error .invalidUnionDiscriminator :=
  ⟨(c4_amended specLimits (by decide)).1, (c4_amended specLimits (by decide)).2.1,
   (c4_amended specLimits (by decide)).2.2.1, (c4_amended specLimits (by decide)).2.2.2.1⟩

/-- C6, counterexample: the `sid` field of the new-message variant is not
bounded — `updates/message.ts` declares it as a plain `z.string()` with no
`.max()` — so a new-message value whose `sid` is 1000 characters long (far
beyond the spec's "few hundred characters" identifier limit) validates
successfully instead of failing with a length violation. -/
theorem c6_counterexample :
    ApiUpdateSchema specLimits (newMessageWithSid (strOfLen 1000)) =
      .ok (newMessageWithSid (strOfLen 1000)) := rfl

/-- C6, amended: the session and machine schema files bound their identifier
and encrypted-blob fields, and on those the boundary behaviour is as the
spec says: a new-session `sid` of exactly `ID_MAX` characters validates,
one of `ID_MAX + 1` characters fails with the `too_big` length violation
(distinct from the generic shape violation, i.e. not silent truncation);
but the new-message `sid` is unbounded — a `sid` of any length validates. -/
theorem c6_amended (L : StringLimits) (h : 1 ≤ L.ID_MAX) :
    ApiUpdateSchema L (newSessionWithSid (strOfLen L.ID_MAX)) =
      .ok (newSessionWithSid (strOfLen L.ID_MAX))
    ∧ ApiUpdateSchema L (newSessionWithSid (strOfLen (L.ID_MAX + 1))) = .error .tooBig
    ∧ (∀ n : Nat, ApiUpdateSchema L (newMessageWithSid (strOfLen n)) =
        .ok (newMessageWithSid (strOfLen n)))
    ∧ ZodIssue.tooBig ≠ ZodIssue.invalidType := by
  have hs1 : zStringMinMax 1 L.ID_MAX (.str (strOfLen L.ID_MAX)) =
      .ok (.str (strOfLen L.ID_MAX)) := by
    simp only [zStringMinMax, strOfLen_length]
    rw [if_neg (by omega), if_neg (by omega)]
  have hs2 : zStringMinMax 1 L.ID_MAX (.str (strOfLen (L.ID_MAX + 1))) =
      .error .tooBig := by
    simp only [zStringMinMax, strOfLen_length]
    rw [if_neg (by omega), if_pos (by omega)]
  refine ⟨?_, ?_, fun n => rfl, by decide⟩
  · show ApiUpdateNewSessionSchema L (newSessionWithSid (strOfLen L.ID_MAX)) =
      .ok (newSessionWithSid (strOfLen L.ID_MAX))
    simp [ApiUpdateNewSessionSchema, zObject, newSessionWithSid, runFields, objLookup,
      zReq, zNullableF, zNullable, zLiteral, zNumber, zBoolean, zStringMax, hs1,
      Except.map, Bind.bind, Except.bind]
  · show ApiUpdateNewSessionSchema L (newSessionWithSid (strOfLen (L.ID_MAX + 1))) =
      .error .tooBig
    simp [ApiUpdateNewSessionSchema, zObject, newSessionWithSid, runFields, objLookup,
      zReq, zNullableF, zNullable, zLiteral, zNumber, zBoolean, zStringMax, hs2,
      Except.map, Bind.bind, Except.bind]

/-- Witness for C6: the amended statement at the representative limits, with
the unbounded new-message clause instantiated at length 1000. -/
theorem c6_amended_witness :
    ApiUpdateSchema specLimits (newSessionWithSid (strOfLen specLimits.ID_MAX)) =
      .ok (newSessionWithSid (strOfLen specLimits.ID_MAX))
    ∧ ApiUpdateSchema specLimits (newSessionWithSid (strOfLen (specLimits.ID_MAX + 1))) =
      .error .tooBig
    ∧ ApiUpdateSchema specLimits (newMessageWithSid (strOfLen 1000)) =
      .ok (newMessageWithSid (strOfLen 1000)) :=
  ⟨(c6_amended specLimits (by decide)).1, (c6_amended specLimits (by decide)).2.1,
   (c6_amended specLimits (by decide)).2.2.1 1000⟩

/-- C9: `UpdatePayloadSchema` checks only that the wrapped body is an object
with a string `t` and passes every other body field through unvalidated:
the concrete payload whose body is `{t: "new-message", garbage: 42}` is
accepted (body kept verbatim) although that body fails `ApiUpdateSchema`,
and the same payload is rejected by `ApiUpdateContainerSchema`; in general a
value accepted by `ApiUpdateContainerSchema` always has a body that fully
validates against `ApiUpdateSchema`. -/
theorem c9_payload_envelopes :
    UpdatePayloadSchema partialBodyPayload = .ok partialBodyPayloadParsed
    ∧ ApiUpdateSchema specLimits
        (.obj [("t", .str "new-message"), ("garbage", .num 42)]) = .error .invalidType
    ∧ ApiUpdateContainerSchema specLimits partialBodyPayload = .error .invalidType
    ∧ (∀ (L : StringLimits) (v r : JValue), ApiUpdateContainerSchema L v = .ok r →
        ∃ kvs b w, v = .obj kvs ∧ objLookup kvs "body" = some b ∧
          ApiUpdateSchema L b = .ok w) := by
  refine ⟨rfl, rfl, rfl, ?_⟩
  intro L v r h
  obtain ⟨kvs, outs, hv, hrf, _⟩ := zObject_ok h
  have nd := nodup_keys_from ["id", "seq", "body", "createdAt"] hrf rfl (by decide)
  obtain ⟨b, w, hov, hb⟩ := outs_req_any "body" hrf nd rfl
  exact ⟨kvs, b, w, hv, hov, hb⟩

/-- Witness for C9: the container clause applied to a concrete container
with a fully valid delete-session body. -/
theorem c9_payload_envelopes_witness :
    ∃ kvs b w, fullBodyContainer = .obj kvs ∧ objLookup kvs "body" = some b ∧
      ApiUpdateSchema specLimits b = .ok w :=
  c9_payload_envelopes.2.2.2 specLimits fullBodyContainer
    (.obj [("id", .str "upd-2"), ("seq", .num 8),
      ("body", .obj [("t", .str "delete-session"), ("sid", .str "session-9")]),
      ("createdAt", .num 1700000000000)]) rfl

end HappyShared
